import Mathlib

/-!
Shallow embedding of the nautobot IPAM address-space engine and DCIM cable
topology engine (nautobot/ipam/models.py, nautobot/dcim/models/cables.py).

Addresses are modelled by their integer value (`Nat`), as both IPv4 and IPv6
addresses are stored and compared in a single ordered binary form.  Database
tables are lists of records; bulk updates are maps over those lists; queryset
filters are list filters translated clause by clause from the source.
-/

/-- IP version of a prefix or address; the model fields restrict it to 4 or 6. -/
inductive IPVersion
  | v4
  | v6
deriving DecidableEq, Repr

/-- `PrefixTypeChoices`: network, pool or container. -/
inductive PrefixType
  | network
  | pool
  | container
deriving DecidableEq, Repr

/-- A row of the `ipam_prefix` table: the fields of `Prefix` that the ipam
engine reads (`network`/`broadcast` as integer address values). -/
structure PrefixRec where
  id : Nat
  network : Nat
  broadcast : Nat
  prefix_length : Nat
  ip_version : IPVersion
  type : PrefixType
  parent : Option Nat
  namespace_id : Nat
deriving DecidableEq, Repr

/-- A row of the `ipam_ipaddress` table (fields the engine reads). -/
structure IPAddressRec where
  id : Nat
  host : Nat
  prefix_length : Nat
  ip_version : IPVersion
  parent : Option Nat
  nat_inside : Option Nat
deriving DecidableEq, Repr

/-- The ipam database state: the Prefix table and the IPAddress table. -/
structure IpamState where
  prefixes : List PrefixRec
  ipaddresses : List IPAddressRec
deriving DecidableEq, Repr

def lookupPrefix (s : IpamState) (i : Nat) : Option PrefixRec :=
  s.prefixes.find? (fun q => q.id == i)

def lookupIP (s : IpamState) (i : Nat) : Option IPAddressRec :=
  s.ipaddresses.find? (fun q => q.id == i)

/-- `Prefix.supernets()` (no arguments): all other prefixes with the same
`ip_version` and `namespace`, `prefix_length <= self.prefix_length`,
`network <= self.network` and `broadcast >= self.broadcast`. -/
def supernetsFilter (s : IpamState) (p : PrefixRec) : List PrefixRec :=
  s.prefixes.filter fun q =>
    decide (q.id ≠ p.id ∧ q.ip_version = p.ip_version ∧ q.prefix_length ≤ p.prefix_length ∧
      q.network ≤ p.network ∧ p.broadcast ≤ q.broadcast ∧ q.namespace_id = p.namespace_id)

/-- One step of Python `max(..., key=operator.attrgetter "prefix_length")`:
the current maximum is replaced only when the next key is strictly larger,
so the first element with the maximal key wins. -/
def pyMaxStep (acc : Option PrefixRec) (q : PrefixRec) : Option PrefixRec :=
  match acc with
  | none => some q
  | some m => if m.prefix_length < q.prefix_length then some q else some m

/-- Python `max(l, key=operator.attrgetter "prefix_length")`, `none` on `[]`. -/
def pyMaxByLen (l : List PrefixRec) : Option PrefixRec :=
  l.foldl pyMaxStep none

/-- The in-memory effect of `Prefix.save` on `self`: if `supernets()` is
non-empty, `self.parent` is set to the supernet with the largest
`prefix_length`; otherwise `self.parent` is left as it was. -/
def prefixSaveObj (s : IpamState) (p : PrefixRec) : PrefixRec :=
  match pyMaxByLen (supernetsFilter s p) with
  | some m => { p with parent := some m.id }
  | none => p

/-- Persist a prefix row (`super().save()`): update in place when a row with
the same pk exists, otherwise insert. -/
def upsertPrefix (s : IpamState) (p : PrefixRec) : IpamState :=
  if s.prefixes.any (fun q => q.id == p.id) then
    { s with prefixes := s.prefixes.map (fun q => if q.id == p.id then p else q) }
  else
    { s with prefixes := s.prefixes ++ [p] }

/-- `Prefix.reparent_subnets()`: bulk-update to `parent = self` of every other
prefix with `parent_id = self.parent_id`, `prefix_length > self.prefix_length`,
same `ip_version`, `network >= self.network`, `broadcast <= self.broadcast`
and same `namespace`. -/
def reparent_subnets (s : IpamState) (p : PrefixRec) : IpamState :=
  { s with prefixes := s.prefixes.map fun q =>
      if decide (q.id ≠ p.id ∧ q.parent = p.parent ∧ p.prefix_length < q.prefix_length ∧
          q.ip_version = p.ip_version ∧ p.network ≤ q.network ∧ q.broadcast ≤ p.broadcast ∧
          q.namespace_id = p.namespace_id) then
        { q with parent := some p.id }
      else q }

/-- `Prefix.reparent_ips()`: bulk-update to `parent = self` of every IPAddress
with `parent_id = self.parent_id` — the only filter clause in the source. -/
def reparent_ips (s : IpamState) (p : PrefixRec) : IpamState :=
  { s with ipaddresses := s.ipaddresses.map fun ip =>
      if ip.parent == p.parent then { ip with parent := some p.id } else ip }

/-- `Prefix.save`: resolve `parent` from `supernets()`, persist, then
`reparent_subnets()` and `reparent_ips()`. -/
def prefixSave (s : IpamState) (p0 : PrefixRec) : IpamState :=
  let p := prefixSaveObj s p0
  reparent_ips (reparent_subnets (upsertPrefix s p) p) p

/-- Child prefixes of pk `pid` (`related_name="children"`, `on_delete=PROTECT`). -/
def childPrefixes (s : IpamState) (pid : Nat) : List PrefixRec :=
  s.prefixes.filter (fun q => q.parent == some pid)

/-- Child IP addresses of pk `pid` (`related_name="ip_addresses"`, `on_delete=PROTECT`). -/
def childIPs (s : IpamState) (pid : Nat) : List IPAddressRec :=
  s.ipaddresses.filter (fun ip => ip.parent == some pid)

/-- Whether deleting prefix `pid` raises `ProtectedError`: some child Prefix or
child IPAddress still references it through a `PROTECT` foreign key. -/
def hasProtected (s : IpamState) (pid : Nat) : Bool :=
  !(childPrefixes s pid).isEmpty || !(childIPs s pid).isEmpty

/-- The model of the first element of `err.protected_objects`, from which
`Prefix.delete` reads `protected_model`.  Django does not specify which of the
two protecting related models comes first, so it is a parameter constrained
(in the theorems) to a model that actually has protected children. -/
inductive ProtectedModel
  | prefixModel
  | ipModel
deriving DecidableEq, Repr

/-- The pks of all objects in `err.protected_objects` (children of both models). -/
def protectedPks (s : IpamState) (pid : Nat) : List Nat :=
  (childPrefixes s pid).map (fun q => q.id) ++ (childIPs s pid).map (fun ip => ip.id)

/-- `protected_model.objects.filter(pk__in=protected_pks).update(parent=self.parent)`. -/
def reassignProtected (s : IpamState) (model : ProtectedModel) (pks : List Nat)
    (newParent : Option Nat) : IpamState :=
  match model with
  | .prefixModel =>
    { s with prefixes := s.prefixes.map fun q =>
        if pks.contains q.id then { q with parent := newParent } else q }
  | .ipModel =>
    { s with ipaddresses := s.ipaddresses.map fun ip =>
        if pks.contains ip.id then { ip with parent := newParent } else ip }

/-- Remove the prefix row (a successful `super().delete()`). -/
def removePrefix (s : IpamState) (pid : Nat) : IpamState :=
  { s with prefixes := s.prefixes.filter (fun q => q.id != pid) }

/-- Outcome of `Prefix.delete`: success, the explicit "child IPAddress objects
would no longer have a parent" `ProtectedError`, or an uncaught
`ProtectedError` propagating from the retried `super().delete()`. -/
inductive DeleteOutcome
  | ok (s : IpamState)
  | explicitProtected (s : IpamState)
  | protectedError (s : IpamState)
deriving DecidableEq, Repr

def DeleteOutcome.isOk : DeleteOutcome → Bool
  | .ok _ => true
  | _ => false

/-- `Prefix.delete`: try `super().delete()`; on `ProtectedError` read the model
of the first protected object; raise the explicit error when that model is
IPAddress and `self.parent is None`; otherwise update that model's rows with
pk in the protected pks to `parent=self.parent` and retry the delete once. -/
def prefixDelete (s : IpamState) (p : PrefixRec) (firstProtected : ProtectedModel) :
    DeleteOutcome :=
  if hasProtected s p.id then
    if firstProtected = ProtectedModel.ipModel ∧ p.parent = none then
      .explicitProtected s
    else
      let s1 := reassignProtected s firstProtected (protectedPks s p.id) p.parent
      if hasProtected s1 p.id then .protectedError s1
      else .ok (removePrefix s1 p.id)
  else .ok (removePrefix s p.id)

/-- Bit width of the address space for an IP version. -/
def ipBits : IPVersion → Nat
  | .v4 => 32
  | .v6 => 128

/-- `self.prefix.size` (netaddr): number of addresses in the CIDR block. -/
def pfxSize (p : PrefixRec) : Nat :=
  2 ^ (ipBits p.ip_version - p.prefix_length)

/-- `self.prefix.first`: the integer value of the first address of the CIDR. -/
def pfxFirst (p : PrefixRec) : Nat := p.network

/-- `self.prefix.last`: the integer value of the last address of the CIDR. -/
def pfxLast (p : PrefixRec) : Nat := p.network + (pfxSize p - 1)

/-- `netaddr.IPSet(self.prefix)`: the full address range of the prefix. -/
def prefixSet (p : PrefixRec) : Finset Nat := Finset.Icc (pfxFirst p) (pfxLast p)

/-- `Prefix.get_child_ips()`: `self.ip_addresses.all()`. -/
def get_child_ips (s : IpamState) (p : PrefixRec) : List IPAddressRec :=
  s.ipaddresses.filter (fun ip => ip.parent == some p.id)

/-- `Prefix.get_available_ips()`: the prefix range minus the child IP hosts;
unless the prefix is IPv6, a pool, or an IPv4 /31-or-longer, the first and
last addresses of the range are removed as well. -/
def get_available_ips (s : IpamState) (p : PrefixRec) : Finset Nat :=
  let available := prefixSet p \ ((get_child_ips s p).map (fun ip => ip.host)).toFinset
  if p.ip_version = IPVersion.v6 ∨ p.type = PrefixType.pool ∨
      (p.ip_version = IPVersion.v4 ∧ 31 ≤ p.prefix_length) then
    available
  else
    available \ {pfxFirst p, pfxLast p}

/-- `Prefix.subnets()` (hence `descendants()`): all other prefixes with the same
`ip_version` and `namespace`, `prefix_length >= self.prefix_length`,
`network >= self.network` and `broadcast <= self.broadcast`. -/
def descendantsList (s : IpamState) (p : PrefixRec) : List PrefixRec :=
  s.prefixes.filter fun q =>
    decide (q.id ≠ p.id ∧ q.ip_version = p.ip_version ∧ p.prefix_length ≤ q.prefix_length ∧
      p.network ≤ q.network ∧ q.broadcast ≤ p.broadcast ∧ q.namespace_id = p.namespace_id)

/-- `netaddr.IPSet(p.prefix for p in ...)`: union of the CIDR ranges. -/
def coveredSet (l : List PrefixRec) : Finset Nat :=
  l.foldr (fun q acc => prefixSet q ∪ acc) ∅

/-- The `UtilizationData` namedtuple. -/
structure UtilizationData where
  numerator : Nat
  denominator : Nat
deriving DecidableEq, Repr

/-- `Prefix.get_utilization()`: for container prefixes, size covered by
descendants over own size; otherwise `prefix_size - get_available_ips().size`
over `prefix_size`, where `prefix_size` is reduced by 2 for IPv4 non-pool
prefixes shorter than /31. -/
def get_utilization (s : IpamState) (p : PrefixRec) : UtilizationData :=
  if p.type = PrefixType.container then
    { numerator := (coveredSet (descendantsList s p)).card, denominator := pfxSize p }
  else
    let prefix_size :=
      if p.ip_version = IPVersion.v4 ∧ p.prefix_length < 31 ∧ p.type ≠ PrefixType.pool then
        pfxSize p - 2
      else pfxSize p
    { numerator := prefix_size - (get_available_ips s p).card, denominator := prefix_size }

/-- The in-memory `IPAddress` object: the persistent fields plus the
non-column attributes `_namespace` and `present_in_database`. -/
structure IPAddressObj where
  id : Nat
  host : Nat
  prefix_length : Nat
  ip_version : IPVersion
  parent : Option Nat
  nat_inside : Option Nat
  _namespace : Option Nat
  present_in_database : Bool
deriving DecidableEq, Repr

/-- `IPAddress.__init__`: pops `address`, `namespace` and `parent` from the
kwargs; the caller-supplied `parent` is discarded ("We don't want users
providing their own parent since it will be derived automatically") except
that, when `namespace` was not given, `_namespace` is taken from the explicit
parent's namespace.  The host/prefix_length/ip_version arguments stand for the
values `_deconstruct_address` derives from the address literal. -/
def ipaddress_init (id host prefix_length : Nat) (ip_version : IPVersion)
    (namespace_arg : Option Nat) (parent_arg : Option PrefixRec) : IPAddressObj :=
  let ns := match namespace_arg with
    | some n => some n
    | none => parent_arg.map (fun q => q.namespace_id)
  { id := id, host := host, prefix_length := prefix_length, ip_version := ip_version,
    parent := none, nat_inside := none, _namespace := ns, present_in_database := false }

/-- A structured (field-keyed) or unstructured (plain text) validation error. -/
inductive ValidationErr
  | keyed (field : String) (msg : String)
  | plain (msg : String)
deriving DecidableEq, Repr

def ValidationErr.isKeyed : ValidationErr → Bool
  | .keyed _ _ => true
  | .plain _ => false

/-- An error escaping `IPAddress.save`: a `ValidationError`, or an ORM lookup
failure (`DoesNotExist` from `get_closest_parent`, or the attribute access
`self.parent.namespace` on a corrupt row). -/
inductive SaveErr
  | validation (e : ValidationErr)
  | lookupFailed (msg : String)
deriving DecidableEq, Repr

/-- The prefixes of namespace `ns` whose range contains `host`. -/
def enclosingPrefixes (s : IpamState) (host ns : Nat) : List PrefixRec :=
  s.prefixes.filter fun q =>
    decide (q.namespace_id = ns ∧ q.network ≤ host ∧ host ≤ q.broadcast)

/-- Modelled from the spec: `Prefix.objects.get_closest_parent(host, namespace)`
lives in nautobot/ipam/querysets.py, which is not part of the sources given;
per the spec it returns "the most specific enclosing prefix in the resolved
namespace", i.e. the enclosing prefix with the largest prefix_length, and the
lookup fails when no enclosing prefix exists. -/
def get_closest_parent (s : IpamState) (host ns : Nat) : Option PrefixRec :=
  pyMaxByLen (enclosingPrefixes s host ns)

/-- Persist an IPAddress row: update in place or insert. -/
def upsertIP (s : IpamState) (r : IPAddressRec) : IpamState :=
  if s.ipaddresses.any (fun q => q.id == r.id) then
    { s with ipaddresses := s.ipaddresses.map (fun q => if q.id == r.id then r else q) }
  else
    { s with ipaddresses := s.ipaddresses ++ [r] }

/-- `IPAddress.save`: for a new object the namespace is `_namespace` (error
keyed "parent" when it is `None`); for an existing object it is
`self.parent.namespace`; then `self.parent` is recomputed as
`Prefix.objects.get_closest_parent(self.host, namespace=namespace)` and the
row is persisted. -/
def ipaddress_save (s : IpamState) (obj : IPAddressObj) :
    Except SaveErr (IPAddressRec × IpamState) :=
  let nsRes : Except SaveErr Nat :=
    if obj.present_in_database then
      match obj.parent.bind (lookupPrefix s) with
      | none => .error (.lookupFailed "parent prefix of a saved IPAddress not found")
      | some pp => .ok pp.namespace_id
    else
      match obj._namespace with
      | none => .error (.validation (.keyed "parent" "Namespace could not be determined."))
      | some ns => .ok ns
  match nsRes with
  | .error e => .error e
  | .ok ns =>
    match get_closest_parent s obj.host ns with
    | none => .error (.lookupFailed "Prefix matching query does not exist")
    | some q =>
      let r : IPAddressRec :=
        { id := obj.id, host := obj.host, prefix_length := obj.prefix_length,
          ip_version := obj.ip_version, parent := some q.id, nat_inside := obj.nat_inside }
      .ok (r, upsertIP s r)

/-- `self.nat_outside_list`: the IPAddresses whose `nat_inside` points at `ip`. -/
def nat_outside_list (s : IpamState) (ip : IPAddressRec) : List IPAddressRec :=
  s.ipaddresses.filter (fun o => o.nat_inside == some ip.id)

/-- Result of the legacy `nat_outside` getter: a value, or the distinct
`NATOutsideMultipleObjectsReturned` error carrying the queried object. -/
inductive NatOutsideResult
  | ok (v : Option IPAddressRec)
  | multipleObjectsReturned (obj : IPAddressRec)
deriving DecidableEq, Repr

/-- The `IPAddress.nat_outside` property getter: raises
`NATOutsideMultipleObjectsReturned(self)` when `nat_outside_list.count() > 1`,
otherwise returns `nat_outside_list.first()`. -/
def nat_outside (s : IpamState) (ip : IPAddressRec) : NatOutsideResult :=
  if 1 < (nat_outside_list s ip).length then .multipleObjectsReturned ip
  else .ok (nat_outside_list s ip).head?

/-- The concrete kind (ContentType) of a cable termination. -/
inductive TermModel
  | interface
  | frontport
  | rearport
  | circuittermination
  | consoleport
  | consoleserverport
  | powerport
  | poweroutlet
  | powerfeed
deriving DecidableEq, Repr

/-- A terminable endpoint: the union of the fields `Cable.clean` reads off the
concrete termination objects.  `iface_type` is the Interface `type` value,
`positions`/`rear_port` belong to rear/front ports, `provider_network` to
circuit terminations, and `cable` is the `CableTermination.cable` foreign key
(the cable currently attached, if any). -/
structure TermRec where
  model : TermModel
  id : Nat
  iface_type : Nat
  positions : Nat
  rear_port : Option Nat
  provider_network : Option Nat
  cable : Option Nat
deriving DecidableEq, Repr

/-- A row of (or in-memory instance of) the `dcim_cable` model.  The
`termination_*_type` fields are `Option` because `Cable.clean` guards them
with `hasattr`.  A new instance carries a fresh `id` standing for its
identity; `present_in_database` tells whether a row with this pk is stored. -/
structure CableRec where
  id : Nat
  termination_a_type : Option TermModel
  termination_a_id : Nat
  termination_b_type : Option TermModel
  termination_b_id : Nat
  length : Option Nat
  length_unit : String
  present_in_database : Bool
deriving DecidableEq, Repr

/-- The dcim database state. -/
structure DcimState where
  cables : List CableRec
  terminations : List TermRec
deriving DecidableEq, Repr

/-- `self.termination_a_type.model_class().objects.get(pk=...)`: look a
termination up by concrete model and pk. -/
def getTermination (s : DcimState) (m : TermModel) (i : Nat) : Option TermRec :=
  s.terminations.find? (fun t => t.model == m && t.id == i)

/-- `getattr(x, "rear_port", None)`: only front ports have a `rear_port`. -/
def rearPortRef (t : TermRec) : Option Nat :=
  if t.model == TermModel.frontport then t.rear_port else none

def isPortModel : TermModel → Bool
  | .frontport => true
  | .rearport => true
  | _ => false

/-- Django model equality: same concrete model and same pk. -/
def termEq (a b : TermRec) : Bool :=
  a.model == b.model && a.id == b.id

/-- `Cable.clean`, translated check by check in source order.  `compat` stands
for membership in `COMPATIBLE_TERMINATION_TYPES` and `noncon` for membership
in `NONCONNECTABLE_IFACE_TYPES`; both constants live in dcim/constants.py,
which is not among the sources given, so they are parameters here.  The final
`elif` of the source (blanking `length_unit` when `length is None`) only
mutates the instance and is not part of the validation outcome. -/
def cable_clean (compat : TermModel → TermModel → Bool) (noncon : Nat → Bool)
    (s : DcimState) (c : CableRec) : Except ValidationErr Unit :=
  match c.termination_a_type with
  | none => .error (.plain "Termination A type has not been specified")
  | some taT =>
    match getTermination s taT c.termination_a_id with
    | none => .error (.keyed "termination_a" "Invalid ID for type")
    | some ta =>
      match c.termination_b_type with
      | none => .error (.plain "Termination B type has not been specified")
      | some tbT =>
        match getTermination s tbT c.termination_b_id with
        | none => .error (.keyed "termination_b" "Invalid ID for type")
        | some tb =>
          if c.present_in_database &&
              ((s.cables.find? (fun c0 => c0.id == c.id)).elim false (fun c0 =>
                !(c.termination_a_type == c0.termination_a_type &&
                  c.termination_a_id == c0.termination_a_id))) then
            .error (.keyed "termination_a"
              "Cable termination points may not be modified. Delete and recreate the cable instead.")
          else if c.present_in_database &&
              ((s.cables.find? (fun c0 => c0.id == c.id)).elim false (fun c0 =>
                !(c.termination_b_type == c0.termination_b_type &&
                  c.termination_b_id == c0.termination_b_id))) then
            .error (.keyed "termination_b"
              "Cable termination points may not be modified. Delete and recreate the cable instead.")
          else if taT == TermModel.interface && noncon ta.iface_type then
            .error (.keyed "termination_a_id" "Cables cannot be terminated to this interface type")
          else if tbT == TermModel.interface && noncon tb.iface_type then
            .error (.keyed "termination_b_id" "Cables cannot be terminated to this interface type")
          else if !(compat taT tbT) then
            .error (.plain "Incompatible termination types")
          else if taT == TermModel.rearport && tbT == TermModel.rearport &&
              decide (1 < ta.positions) && decide (1 < tb.positions) &&
              !(ta.positions == tb.positions) then
            .error (.plain
              "Both terminations must have the same number of positions (if greater than one)")
          else if termEq ta tb then
            .error (.plain "Cannot connect a termination type to itself")
          else if isPortModel taT && isPortModel tbT &&
              (((rearPortRef ta).elim false (fun rid => tb.model == TermModel.rearport && rid == tb.id)) ||
               ((rearPortRef tb).elim false (fun rid => ta.model == TermModel.rearport && rid == ta.id))) then
            .error (.plain "A front port cannot be connected to it corresponding rear port")
          else if taT == TermModel.circuittermination && ta.provider_network.isSome then
            .error (.keyed "termination_a_id"
              "Circuit terminations attached to a provider network may not be cabled.")
          else if tbT == TermModel.circuittermination && tb.provider_network.isSome then
            .error (.keyed "termination_b_id"
              "Circuit terminations attached to a provider network may not be cabled.")
          else if ta.cable.elim false (fun d => !(d == c.id)) then
            .error (.plain "Termination A already has a cable attached")
          else if tb.cable.elim false (fun d => !(d == c.id)) then
            .error (.plain "Termination B already has a cable attached")
          else if c.length.isSome && c.length_unit == "" then
            .error (.plain "Must specify a unit when setting a cable length")
          else
            .ok ()

/-- Cable side choices for `CableEnd`. -/
inductive CableSide
  | a
  | b
deriving DecidableEq, Repr

/-- A row of the `dcim_cableend` join table. -/
structure CableEndRec where
  cable : Nat
  cable_termination : Nat
  cable_side : CableSide
  position : Nat
deriving DecidableEq, Repr

/-- Whether inserting `e` into the `CableEnd` table `t` violates one of the
two `unique_together` constraints of `CableEnd.Meta`:
`("cable", "position", "cable_side")` and `("cable_termination",)`. -/
def ceConflict (t : List CableEndRec) (e : CableEndRec) : Bool :=
  t.any fun r =>
    (r.cable == e.cable && r.position == e.position && r.cable_side == e.cable_side) ||
    r.cable_termination == e.cable_termination

/-- The `CableEnd` table states reachable from an empty table when every
insert is subject to the database uniqueness constraints of `CableEnd.Meta`
(an insert violating them is rejected) and rows may be deleted freely. -/
inductive CEReachable : List CableEndRec → Prop
  | empty : CEReachable []
  | insert (e : CableEndRec) (t : List CableEndRec) :
      CEReachable t → ceConflict t e = false → CEReachable (e :: t)
  | remove (e : CableEndRec) (t : List CableEndRec) :
      CEReachable t → CEReachable (t.erase e)

/-! Concrete states used to evaluate the definitions (addresses written as the
integer values of the dotted literals, e.g. 10.0.0.0 = 167772160). -/

/-- 10.0.0.0/8 in namespace 0, no parent. -/
def exA : PrefixRec :=
  { id := 1, network := 167772160, broadcast := 184549375, prefix_length := 8,
    ip_version := IPVersion.v4, type := PrefixType.network, parent := none, namespace_id := 0 }

/-- 192.168.0.0/16 carrying a stale parent pointer at 10.0.0.0/8. -/
def exP192 : PrefixRec :=
  { id := 2, network := 3232235520, broadcast := 3232301055, prefix_length := 16,
    ip_version := IPVersion.v4, type := PrefixType.network, parent := some 1, namespace_id := 0 }

/-- State holding only 10.0.0.0/8. -/
def exS1 : IpamState := { prefixes := [exA], ipaddresses := [] }

/-- 10.1.0.5/32, a child address of 10.0.0.0/8. -/
def exX : IPAddressRec :=
  { id := 7, host := 167837701, prefix_length := 32, ip_version := IPVersion.v4,
    parent := some 1, nat_inside := none }

/-- State holding 10.0.0.0/8 and the address 10.1.0.5 under it. -/
def exS2 : IpamState := { prefixes := [exA], ipaddresses := [exX] }

/-- 10.2.0.0/16, a new prefix about to be saved into namespace 0. -/
def exP102 : PrefixRec :=
  { id := 2, network := 167903232, broadcast := 167968767, prefix_length := 16,
    ip_version := IPVersion.v4, type := PrefixType.network, parent := none, namespace_id := 0 }

/-- 10.0.0.0/16 under 10.0.0.0/8. -/
def exP16 : PrefixRec :=
  { id := 2, network := 167772160, broadcast := 167837695, prefix_length := 16,
    ip_version := IPVersion.v4, type := PrefixType.network, parent := some 1, namespace_id := 0 }

/-- 10.0.1.0/24 under 10.0.0.0/16. -/
def exC24 : PrefixRec :=
  { id := 3, network := 167772416, broadcast := 167772671, prefix_length := 24,
    ip_version := IPVersion.v4, type := PrefixType.network, parent := some 2, namespace_id := 0 }

/-- 10.0.0.5/32 under 10.0.0.0/16. -/
def exX2 : IPAddressRec :=
  { id := 10, host := 167772165, prefix_length := 32, ip_version := IPVersion.v4,
    parent := some 2, nat_inside := none }

/-- 10.0.0.0/16 with both a child Prefix (10.0.1.0/24) and a child IPAddress. -/
def exS3 : IpamState := { prefixes := [exA, exP16, exC24], ipaddresses := [exX2] }

/-- Same hierarchy with only the child Prefix. -/
def exS4 : IpamState := { prefixes := [exA, exP16, exC24], ipaddresses := [] }

/-- A non-pool IPv4 /30 at address 0. -/
def exP30 : PrefixRec :=
  { id := 1, network := 0, broadcast := 3, prefix_length := 30,
    ip_version := IPVersion.v4, type := PrefixType.network, parent := none, namespace_id := 0 }

/-- A non-pool IPv4 /31 at address 0. -/
def exP31 : PrefixRec :=
  { id := 1, network := 0, broadcast := 1, prefix_length := 31,
    ip_version := IPVersion.v4, type := PrefixType.network, parent := none, namespace_id := 0 }

/-- A state with no IP addresses at all. -/
def exEmptyIPs : IpamState := { prefixes := [exP30], ipaddresses := [] }

/-- An IPv4 /24 container in namespace 0. -/
def exCont : PrefixRec :=
  { id := 5, network := 167772160, broadcast := 167772415, prefix_length := 24,
    ip_version := IPVersion.v4, type := PrefixType.container, parent := none, namespace_id := 0 }

/-- Two /26 descendants of the /24 container. -/
def exD1 : PrefixRec :=
  { id := 6, network := 167772160, broadcast := 167772223, prefix_length := 26,
    ip_version := IPVersion.v4, type := PrefixType.network, parent := some 5, namespace_id := 0 }

def exD2 : PrefixRec :=
  { id := 7, network := 167772224, broadcast := 167772287, prefix_length := 26,
    ip_version := IPVersion.v4, type := PrefixType.network, parent := some 5, namespace_id := 0 }

def exSCont : IpamState := { prefixes := [exCont, exD1, exD2], ipaddresses := [] }

/-- NAT example: one inside address and two outside addresses referencing it. -/
def exNatIn : IPAddressRec :=
  { id := 1, host := 167772161, prefix_length := 32, ip_version := IPVersion.v4,
    parent := none, nat_inside := none }

def exNatOut1 : IPAddressRec :=
  { id := 2, host := 3232235521, prefix_length := 32, ip_version := IPVersion.v4,
    parent := none, nat_inside := some 1 }

def exNatOut2 : IPAddressRec :=
  { id := 3, host := 3232235522, prefix_length := 32, ip_version := IPVersion.v4,
    parent := none, nat_inside := some 1 }

def exSNat2 : IpamState := { prefixes := [], ipaddresses := [exNatIn, exNatOut1, exNatOut2] }

def exSNat1 : IpamState := { prefixes := [], ipaddresses := [exNatIn, exNatOut1] }

def exSNat0 : IpamState := { prefixes := [], ipaddresses := [exNatIn] }

/-! Concrete dcim fixtures. -/

/-- Everything is compatible / nothing is compatible / no interface type is
non-connectable: concrete instantiations for the constants missing from the
sources. -/
def compatAll : TermModel → TermModel → Bool := fun _ _ => true

def compatNone : TermModel → TermModel → Bool := fun _ _ => false

def nonconNone : Nat → Bool := fun _ => false

def exT1 : TermRec :=
  { model := TermModel.consoleport, id := 1, iface_type := 0, positions := 0,
    rear_port := none, provider_network := none, cable := none }

def exT2 : TermRec :=
  { model := TermModel.consoleserverport, id := 2, iface_type := 0, positions := 0,
    rear_port := none, provider_network := none, cable := none }

/-- A front port whose `rear_port` is the rear port `exR4`. -/
def exF3 : TermRec :=
  { model := TermModel.frontport, id := 3, iface_type := 0, positions := 0,
    rear_port := some 4, provider_network := none, cable := none }

def exR4 : TermRec :=
  { model := TermModel.rearport, id := 4, iface_type := 0, positions := 1,
    rear_port := none, provider_network := none, cable := none }

/-- A console port that already has cable 99 attached. -/
def exT5 : TermRec :=
  { model := TermModel.consoleport, id := 5, iface_type := 0, positions := 0,
    rear_port := none, provider_network := none, cable := some 99 }

def exDcim : DcimState :=
  { cables := [], terminations := [exT1, exT2, exF3, exR4, exT5] }

/-- A new cable between `exT1` and `exT2`, no length. -/
def exCab (aT : Option TermModel) (aId : Nat) (bT : Option TermModel) (bId : Nat) : CableRec :=
  { id := 1, termination_a_type := aT, termination_a_id := aId,
    termination_b_type := bT, termination_b_id := bId,
    length := none, length_unit := "", present_in_database := false }

/-- The stored endpoints of cable 9: `exT1` on side A, `exT2` on side B. -/
def exCab9Stored : CableRec :=
  { id := 9, termination_a_type := some TermModel.consoleport, termination_a_id := 1,
    termination_b_type := some TermModel.consoleserverport, termination_b_id := 2,
    length := none, length_unit := "", present_in_database := true }

/-- Cable 9 as loaded and then edited: side A re-pointed at `exT5`. -/
def exCab9ModA : CableRec :=
  { exCab9Stored with termination_a_id := 5 }

/-- Cable 9 as loaded and then edited: side B re-pointed at `exT1`. -/
def exCab9ModB : CableRec :=
  { exCab9Stored with termination_b_type := some TermModel.consoleport, termination_b_id := 1 }

def exDcim9 : DcimState :=
  { cables := [exCab9Stored], terminations := [exT1, exT2, exF3, exR4, exT5] }

/-! Helper lemmas. -/

theorem pyMax_foldl_some (l : List PrefixRec) (a : PrefixRec) :
    ∃ m, l.foldl pyMaxStep (some a) = some m := by
  induction l generalizing a with
  | nil => exact ⟨a, rfl⟩
  | cons q l ih =>
    simp only [List.foldl_cons, pyMaxStep]
    split
    · exact ih q
    · exact ih a

theorem pyMax_foldl_mem (l : List PrefixRec) (a m : PrefixRec)
    (h : l.foldl pyMaxStep (some a) = some m) : m = a ∨ m ∈ l := by
  induction l generalizing a with
  | nil => simp only [List.foldl_nil, Option.some.injEq] at h; exact Or.inl h.symm
  | cons q l ih =>
    simp only [List.foldl_cons, pyMaxStep] at h
    split at h
    · rcases ih q h with h' | h'
      · exact Or.inr (by simp [h'])
      · exact Or.inr (List.mem_cons_of_mem _ h')
    · rcases ih a h with h' | h'
      · exact Or.inl h'
      · exact Or.inr (List.mem_cons_of_mem _ h')

theorem pyMax_foldl_ge (l : List PrefixRec) (a m : PrefixRec)
    (h : l.foldl pyMaxStep (some a) = some m) :
    a.prefix_length ≤ m.prefix_length ∧ ∀ q ∈ l, q.prefix_length ≤ m.prefix_length := by
  induction l generalizing a with
  | nil =>
    simp only [List.foldl_nil, Option.some.injEq] at h
    subst h
    exact ⟨le_refl _, by simp⟩
  | cons q l ih =>
    simp only [List.foldl_cons, pyMaxStep] at h
    split at h
    · rename_i hlt
      have := ih q h
      refine ⟨le_trans (le_of_lt hlt) this.1, ?_⟩
      intro r hr
      rcases List.mem_cons.mp hr with h' | h'
      · exact h' ▸ this.1
      · exact this.2 r h'
    · rename_i hge
      have := ih a h
      refine ⟨this.1, ?_⟩
      intro r hr
      rcases List.mem_cons.mp hr with h' | h'
      · exact h' ▸ le_trans (le_of_not_lt hge) this.1
      · exact this.2 r h'

/-- `pyMaxByLen` returns an element of the list with maximal `prefix_length`. -/
theorem pyMaxByLen_spec (l : List PrefixRec) (m : PrefixRec) (h : pyMaxByLen l = some m) :
    m ∈ l ∧ ∀ q ∈ l, q.prefix_length ≤ m.prefix_length := by
  cases l with
  | nil => simp [pyMaxByLen] at h
  | cons a l =>
    have h' : l.foldl pyMaxStep (some a) = some m := h
    constructor
    · rcases pyMax_foldl_mem l a m h' with h'' | h''
      · simp [h'']
      · exact List.mem_cons_of_mem _ h''
    · intro q hq
      rcases List.mem_cons.mp hq with h'' | h''
      · exact h'' ▸ (pyMax_foldl_ge l a m h').1
      · exact (pyMax_foldl_ge l a m h').2 q h''

/-- `pyMaxByLen` succeeds on a non-empty list. -/
theorem pyMaxByLen_isSome (l : List PrefixRec) (h : l ≠ []) :
    ∃ m, pyMaxByLen l = some m := by
  cases l with
  | nil => exact absurd rfl h
  | cons a l => exact pyMax_foldl_some l a

theorem prefixSaveObj_id (s : IpamState) (p : PrefixRec) : (prefixSaveObj s p).id = p.id := by
  unfold prefixSaveObj
  split <;> rfl

theorem find?_map_replace (l : List PrefixRec) (p : PrefixRec)
    (h : l.any (fun q => q.id == p.id) = true) :
    (l.map (fun q => if q.id == p.id then p else q)).find? (fun q => q.id == p.id) = some p := by
  induction l with
  | nil => simp at h
  | cons a l ih =>
    simp only [List.map_cons]
    by_cases ha : a.id = p.id
    · simp [List.find?_cons, ha]
    · have ha' : (a.id == p.id) = false := by simp [ha]
      simp only [ha', if_false]
      rw [List.find?_cons_of_neg _ (by simp [ha]), ih]
      simp only [List.any_cons, ha', Bool.false_or] at h
      exact h

theorem find?_append_new (l : List PrefixRec) (p : PrefixRec)
    (h : l.any (fun q => q.id == p.id) = false) :
    (l ++ [p]).find? (fun q => q.id == p.id) = some p := by
  induction l with
  | nil => simp [List.find?_cons]
  | cons a l ih =>
    simp only [List.any_cons, Bool.or_eq_false_iff] at h
    simp only [List.cons_append]
    rw [List.find?_cons_of_neg _ (by simp [h.1]), ih h.2]

theorem lookup_upsertPrefix (s : IpamState) (p : PrefixRec) :
    lookupPrefix (upsertPrefix s p) p.id = some p := by
  unfold lookupPrefix upsertPrefix
  split
  · rename_i h
    exact find?_map_replace s.prefixes p h
  · rename_i h
    exact find?_append_new s.prefixes p (by simpa using h)

theorem find?_map_of_fix (l : List PrefixRec) (f : PrefixRec → PrefixRec)
    (pred : PrefixRec → Bool) (hfix : ∀ q, pred q = true → f q = q)
    (hkeep : ∀ q, pred q = false → pred (f q) = false) :
    (l.map f).find? pred = l.find? pred := by
  induction l with
  | nil => rfl
  | cons a l ih =>
    simp only [List.map_cons]
    cases ha : pred a with
    | true =>
      rw [List.find?_cons_of_pos _ (by rw [hfix a ha]; exact ha),
        List.find?_cons_of_pos _ ha, hfix a ha]
    | false =>
      rw [List.find?_cons_of_neg _ (by simp [hkeep a ha]),
        List.find?_cons_of_neg _ (by simp [ha]), ih]

/-- After the full `Prefix.save`, the saved row is stored exactly as
`prefixSaveObj` computed it: the two reparenting passes do not touch it. -/
theorem lookup_prefixSave (s : IpamState) (p : PrefixRec) :
    lookupPrefix (prefixSave s p) p.id = some (prefixSaveObj s p) := by
  unfold prefixSave
  have hid := prefixSaveObj_id s p
  set p' := prefixSaveObj s p with hp'
  show lookupPrefix (reparent_ips (reparent_subnets (upsertPrefix s p') p') p') p.id = some p'
  unfold lookupPrefix reparent_ips reparent_subnets
  simp only
  rw [← hid]
  rw [find?_map_of_fix]
  · exact lookup_upsertPrefix s p'
  · intro q hq
    have : q.id = p'.id := by simpa using hq
    simp [this]
  · intro q hq
    split
    · rename_i hcond
      simpa using hq
    · exact hq

/-- C1 (amended): on save, when `supernets()` is non-empty the parent becomes
the supernet with the largest prefix_length (an enclosing prefix of the same
namespace and ip_version maximizing prefix_length), and that is how the row is
persisted; but when `supernets()` is empty the parent field is left unchanged
rather than being set to null. -/
theorem prefix_save_parent_from_supernets (s : IpamState) (p : PrefixRec) :
    (supernetsFilter s p = [] → (prefixSaveObj s p).parent = p.parent) ∧
    (∀ m, pyMaxByLen (supernetsFilter s p) = some m →
      (prefixSaveObj s p).parent = some m.id ∧
      m ∈ supernetsFilter s p ∧
      ∀ q ∈ supernetsFilter s p, q.prefix_length ≤ m.prefix_length) ∧
    (supernetsFilter s p ≠ [] → ∃ m, pyMaxByLen (supernetsFilter s p) = some m) ∧
    lookupPrefix (prefixSave s p) p.id = some (prefixSaveObj s p) := by
  refine ⟨?_, ?_, ?_, lookup_prefixSave s p⟩
  · intro h
    unfold prefixSaveObj
    rw [h]
    rfl
  · intro m hm
    have hs := pyMaxByLen_spec _ m hm
    refine ⟨?_, hs.1, hs.2⟩
    unfold prefixSaveObj
    rw [hm]
  · exact pyMaxByLen_isSome _

/-- Witness: saving 10.0.0.0/16 into a namespace holding 10.0.0.0/8 stores it
with the /8 as parent, the unique most specific supernet. -/
theorem prefix_save_parent_from_supernets_w :
    (prefixSaveObj exS1 exP16).parent = some exA.id ∧
    exA ∈ supernetsFilter exS1 exP16 ∧
    lookupPrefix (prefixSave exS1 exP16) exP16.id = some (prefixSaveObj exS1 exP16) := by
  have h := prefix_save_parent_from_supernets exS1 exP16
  have h2 := h.2.1 exA (by decide)
  exact ⟨h2.1, h2.2.1, h.2.2.2⟩

/-- Counterexample to C1 as stated: saving 192.168.0.0/16 (stale parent
pointing at 10.0.0.0/8) into a namespace where no prefix encloses it leaves
the stale non-null parent in place instead of recomputing it to null. -/
theorem prefix_save_stale_parent_cex :
    supernetsFilter exS1 exP192 = [] ∧
    ¬(exA.network ≤ exP192.network ∧ exP192.broadcast ≤ exA.broadcast) ∧
    (lookupPrefix (prefixSave exS1 exP192) 2).map (fun q => q.parent) = some (some 1) := by
  refine ⟨by decide, by decide, ?_⟩
  decide

/-- C2, evaluated at the failing input: the namespace holds 10.0.0.0/8 with
the address 10.1.0.5 parented to it; saving the new prefix 10.2.0.0/16
(which resolves its parent to the /8) bulk-updates `reparent_ips` by
`parent_id` alone, so 10.1.0.5 — whose host lies outside 10.2.0.0/16 —
nevertheless has its parent changed to the new prefix. -/
theorem reparent_ips_out_of_range_eval :
    (prefixSaveObj exS2 exP102).parent = some 1 ∧
    exX.parent = some 1 ∧
    ¬(exP102.network ≤ exX.host ∧ exX.host ≤ exP102.broadcast) ∧
    (lookupIP (prefixSave exS2 exP102) exX.id).map (fun ip => ip.parent) = some (some 2) := by
  refine ⟨by decide, by decide, by decide, ?_⟩
  decide

theorem mem_childPrefixes {s : IpamState} {pid : Nat} {q : PrefixRec} :
    q ∈ childPrefixes s pid ↔ q ∈ s.prefixes ∧ q.parent = some pid := by
  simp [childPrefixes, List.mem_filter]

theorem mem_childIPs {s : IpamState} {pid : Nat} {ip : IPAddressRec} :
    ip ∈ childIPs s pid ↔ ip ∈ s.ipaddresses ∧ ip.parent = some pid := by
  simp [childIPs, List.mem_filter]

theorem isEmpty_false_of_ne_nil {α : Type} (l : List α) (h : l ≠ []) : l.isEmpty = false := by
  cases l with
  | nil => exact absurd rfl h
  | cons a l => rfl

theorem filter_nil_of_false {α : Type} (l : List α) (pr : α → Bool)
    (h : ∀ x ∈ l, pr x = false) : l.filter pr = [] := by
  rw [List.filter_eq_nil_iff]
  intro a ha
  simp [h a ha]

/-- With distinct pks across and within the two tables, a prefix row's pk is
among the protected pks exactly when the row is a child of `pid`. -/
theorem contains_protectedPks_prefixRow (s : IpamState) (pid : Nat) (q : PrefixRec)
    (hnodupP : (s.prefixes.map (fun r => r.id)).Nodup)
    (hdisj : ∀ r ∈ s.prefixes, ∀ ip ∈ s.ipaddresses, r.id ≠ ip.id)
    (hq : q ∈ s.prefixes) :
    ((protectedPks s pid).contains q.id = true) ↔ q.parent = some pid := by
  constructor
  · intro h
    have h' : q.id ∈ protectedPks s pid := List.elem_iff.mp h
    rcases List.mem_append.mp h' with hL | hR
    · obtain ⟨q', hq', hid⟩ := List.mem_map.mp hL
      have hq'm := mem_childPrefixes.mp hq'
      have heq : q' = q := List.inj_on_of_nodup_map hnodupP hq'm.1 hq hid
      exact heq ▸ hq'm.2
    · obtain ⟨ip, hip, hid⟩ := List.mem_map.mp hR
      have hipm := mem_childIPs.mp hip
      exact absurd hid.symm (hdisj q hq ip hipm.1)
  · intro h
    apply List.elem_iff.mpr
    apply List.mem_append.mpr
    exact Or.inl (List.mem_map.mpr ⟨q, mem_childPrefixes.mpr ⟨hq, h⟩, rfl⟩)

/-- Symmetric statement for IPAddress rows. -/
theorem contains_protectedPks_ip (s : IpamState) (pid : Nat) (ip : IPAddressRec)
    (hnodupI : (s.ipaddresses.map (fun r => r.id)).Nodup)
    (hdisj : ∀ r ∈ s.prefixes, ∀ j ∈ s.ipaddresses, r.id ≠ j.id)
    (hip : ip ∈ s.ipaddresses) :
    ((protectedPks s pid).contains ip.id = true) ↔ ip.parent = some pid := by
  constructor
  · intro h
    have h' : ip.id ∈ protectedPks s pid := List.elem_iff.mp h
    rcases List.mem_append.mp h' with hL | hR
    · obtain ⟨q', hq', hid⟩ := List.mem_map.mp hL
      have hq'm := mem_childPrefixes.mp hq'
      exact absurd hid (hdisj q' hq'm.1 ip hip)
    · obtain ⟨j, hj, hid⟩ := List.mem_map.mp hR
      have hjm := mem_childIPs.mp hj
      have heq : j = ip := List.inj_on_of_nodup_map hnodupI hjm.1 hip hid
      exact heq ▸ hjm.2
  · intro h
    apply List.elem_iff.mpr
    apply List.mem_append.mpr
    exact Or.inr (List.mem_map.mpr ⟨ip, mem_childIPs.mpr ⟨hip, h⟩, rfl⟩)

/-- C3 (amended): when the protected children of a Prefix are all of a single
model, `delete` reparents them to its own parent and the single retry
succeeds — all child Prefixes, or all child IPAddresses with a non-null
parent; IPAddress children with no parent to fall back to make the delete
raise the explicit error with nothing reparented or deleted.  (With children
of both models, the retry fails: see the counterexample.) -/
theorem prefix_delete_reparents_single_model (s : IpamState) (p : PrefixRec)
    (firstProtected : ProtectedModel)
    (hvalidP : firstProtected = ProtectedModel.prefixModel → childPrefixes s p.id ≠ [])
    (hvalidI : firstProtected = ProtectedModel.ipModel → childIPs s p.id ≠ [])
    (hnodupP : (s.prefixes.map (fun r => r.id)).Nodup)
    (hnodupI : (s.ipaddresses.map (fun r => r.id)).Nodup)
    (hdisj : ∀ r ∈ s.prefixes, ∀ ip ∈ s.ipaddresses, r.id ≠ ip.id)
    (hself : p.parent ≠ some p.id) :
    (childIPs s p.id = [] → childPrefixes s p.id ≠ [] →
      prefixDelete s p firstProtected = DeleteOutcome.ok
        { prefixes := (s.prefixes.map fun q =>
            if q.parent == some p.id then { q with parent := p.parent } else q).filter
              (fun q => q.id != p.id),
          ipaddresses := s.ipaddresses }) ∧
    (∀ a, p.parent = some a → childPrefixes s p.id = [] → childIPs s p.id ≠ [] →
      prefixDelete s p firstProtected = DeleteOutcome.ok
        { prefixes := s.prefixes.filter (fun q => q.id != p.id),
          ipaddresses := s.ipaddresses.map fun ip =>
            if ip.parent == some p.id then { ip with parent := some a } else ip }) ∧
    (firstProtected = ProtectedModel.ipModel → p.parent = none → childIPs s p.id ≠ [] →
      prefixDelete s p firstProtected = DeleteOutcome.explicitProtected s) := by
  refine ⟨?_, ?_, ?_⟩
  · -- only Prefix children
    intro h1 h2
    have hfp : firstProtected = ProtectedModel.prefixModel := by
      cases firstProtected with
      | prefixModel => rfl
      | ipModel => exact absurd h1 (hvalidI rfl)
    subst hfp
    have hhp : hasProtected s p.id = true := by
      simp [hasProtected, isEmpty_false_of_ne_nil _ h2]
    unfold prefixDelete
    rw [if_pos hhp, if_neg (by simp)]
    show (if hasProtected
        (reassignProtected s ProtectedModel.prefixModel (protectedPks s p.id) p.parent) p.id
      then _ else _) = _
    set s1 := reassignProtected s ProtectedModel.prefixModel (protectedPks s p.id) p.parent
      with hs1
    have hmap : s1.prefixes = s.prefixes.map
        (fun q => if q.parent == some p.id then { q with parent := p.parent } else q) := by
      rw [hs1]
      show s.prefixes.map _ = s.prefixes.map _
      apply List.map_congr_left
      intro q hq
      by_cases hqp : q.parent = some p.id
      · have hc : ((protectedPks s p.id).contains q.id) = true :=
          (contains_protectedPks_prefixRow s p.id q hnodupP hdisj hq).mpr hqp
        have hmem : q.id ∈ protectedPks s p.id := List.elem_iff.mp hc
        simp [hmem, hqp]
      · have hnm : q.id ∉ protectedPks s p.id := by
          intro hm
          exact hqp ((contains_protectedPks_prefixRow s p.id q hnodupP hdisj hq).mp
            (List.elem_iff.mpr hm))
        have hqp' : (q.parent == some p.id) = false := by
          rw [beq_eq_false_iff_ne]
          exact hqp
        simp [hnm, hqp']
    have hip1 : s1.ipaddresses = s.ipaddresses := rfl
    have hcp : childPrefixes s1 p.id = [] := by
      apply filter_nil_of_false
      intro x hx
      rw [hmap] at hx
      obtain ⟨q, hq, hxq⟩ := List.mem_map.mp hx
      by_cases hqp : q.parent = some p.id
      · have : x.parent = p.parent := by
          rw [← hxq]
          simp [hqp]
        rw [beq_eq_false_iff_ne, this]
        exact hself
      · have : x = q := by rw [← hxq]; simp [beq_eq_false_iff_ne.mpr hqp]
        rw [beq_eq_false_iff_ne, this]
        exact hqp
    have hci : childIPs s1 p.id = [] := by
      show s1.ipaddresses.filter _ = []
      rw [hip1]
      exact h1
    have hhp1 : hasProtected s1 p.id = false := by
      simp [hasProtected, hcp, hci]
    rw [if_neg (by simp [hhp1])]
    show DeleteOutcome.ok { prefixes := s1.prefixes.filter _, ipaddresses := s1.ipaddresses } = _
    rw [hmap, hip1]
  · -- only IPAddress children, and the prefix has a parent
    intro a hpa h1 h2
    have hfp : firstProtected = ProtectedModel.ipModel := by
      cases firstProtected with
      | ipModel => rfl
      | prefixModel => exact absurd h1 (hvalidP rfl)
    subst hfp
    have hhp : hasProtected s p.id = true := by
      simp [hasProtected, isEmpty_false_of_ne_nil _ h2]
    unfold prefixDelete
    rw [if_pos hhp, if_neg (by simp [hpa])]
    show (if hasProtected
        (reassignProtected s ProtectedModel.ipModel (protectedPks s p.id) p.parent) p.id
      then _ else _) = _
    set s1 := reassignProtected s ProtectedModel.ipModel (protectedPks s p.id) p.parent
      with hs1
    have hmap : s1.ipaddresses = s.ipaddresses.map
        (fun ip => if ip.parent == some p.id then { ip with parent := some a } else ip) := by
      rw [hs1]
      show s.ipaddresses.map _ = s.ipaddresses.map _
      apply List.map_congr_left
      intro ip hip
      by_cases hqp : ip.parent = some p.id
      · have hc : ((protectedPks s p.id).contains ip.id) = true :=
          (contains_protectedPks_ip s p.id ip hnodupI hdisj hip).mpr hqp
        have hmem : ip.id ∈ protectedPks s p.id := List.elem_iff.mp hc
        simp [hmem, hqp, hpa]
      · have hnm : ip.id ∉ protectedPks s p.id := by
          intro hm
          exact hqp ((contains_protectedPks_ip s p.id ip hnodupI hdisj hip).mp
            (List.elem_iff.mpr hm))
        have hqp' : (ip.parent == some p.id) = false := by
          rw [beq_eq_false_iff_ne]
          exact hqp
        simp [hnm, hqp']
    have hpfx1 : s1.prefixes = s.prefixes := rfl
    have hcp : childPrefixes s1 p.id = [] := by
      show s1.prefixes.filter _ = []
      rw [hpfx1]
      exact h1
    have hci : childIPs s1 p.id = [] := by
      apply filter_nil_of_false
      intro x hx
      rw [hmap] at hx
      obtain ⟨ip, hip, hxq⟩ := List.mem_map.mp hx
      by_cases hqp : ip.parent = some p.id
      · have : x.parent = some a := by
          rw [← hxq]
          simp [hqp]
        rw [beq_eq_false_iff_ne, this]
        intro hcontra
        apply hself
        rw [hpa]
        exact hcontra
      · have : x = ip := by rw [← hxq]; simp [beq_eq_false_iff_ne.mpr hqp]
        rw [beq_eq_false_iff_ne, this]
        exact hqp
    have hhp1 : hasProtected s1 p.id = false := by
      simp [hasProtected, hcp, hci]
    rw [if_neg (by simp [hhp1])]
    show DeleteOutcome.ok { prefixes := s1.prefixes.filter _, ipaddresses := s1.ipaddresses } = _
    rw [hmap, hpfx1]
  · -- IPAddress children and no parent: the explicit error, nothing changed
    intro hfp hpn h2
    subst hfp
    have hhp : hasProtected s p.id = true := by
      simp [hasProtected, isEmpty_false_of_ne_nil _ h2]
    unfold prefixDelete
    rw [if_pos hhp, if_pos ⟨rfl, hpn⟩]

/-- Witness: deleting 10.0.0.0/16, whose only protected child is the prefix
10.0.1.0/24, reparents that child to 10.0.0.0/8 and succeeds. -/
theorem prefix_delete_reparents_single_model_w :
    prefixDelete exS4 exP16 ProtectedModel.prefixModel = DeleteOutcome.ok
      { prefixes := (exS4.prefixes.map fun q =>
          if q.parent == some exP16.id then { q with parent := exP16.parent } else q).filter
            (fun q => q.id != exP16.id),
        ipaddresses := exS4.ipaddresses } := by
  have h := prefix_delete_reparents_single_model exS4 exP16 ProtectedModel.prefixModel
    (by decide) (by decide) (by decide) (by decide) (by decide) (by decide)
  exact h.1 (by decide) (by decide)

/-- Counterexample to C3 as stated: 10.0.0.0/16 has a parent (10.0.0.0/8), a
child Prefix and a child IPAddress; the claim says the retried deletion
succeeds, but whichever model heads `protected_objects`, only that model's
children are reparented, the retry hits the other model's children and the
raw `ProtectedError` propagates. -/
theorem prefix_delete_mixed_children_cex :
    childPrefixes exS3 exP16.id ≠ [] ∧ childIPs exS3 exP16.id ≠ [] ∧
    exP16.parent = some 1 ∧
    (prefixDelete exS3 exP16 ProtectedModel.prefixModel).isOk = false ∧
    (prefixDelete exS3 exP16 ProtectedModel.ipModel).isOk = false := by
  decide

/-- C4: an address is available exactly when it lies in the prefix's range, is
not the host of any child IPAddress, and — if and only if the prefix is a
non-pool IPv4 prefix shorter than /31 — is not the first or last address of
the range; hence a non-pool IPv4 /30 yields exactly the two middle addresses
and a /31 excludes nothing. -/
theorem get_available_ips_spec :
    (∀ (s : IpamState) (p : PrefixRec) (a : Nat),
      a ∈ get_available_ips s p ↔
        (a ∈ prefixSet p ∧ (∀ ip ∈ get_child_ips s p, ip.host ≠ a) ∧
          (p.ip_version = IPVersion.v4 ∧ p.type ≠ PrefixType.pool ∧ p.prefix_length < 31 →
            a ≠ pfxFirst p ∧ a ≠ pfxLast p))) ∧
    get_available_ips exEmptyIPs exP30 = {1, 2} ∧
    get_available_ips { prefixes := [exP31], ipaddresses := [] } exP31 = {0, 1} := by
  refine ⟨?_, by decide, by decide⟩
  intro s p a
  unfold get_available_ips
  split
  · rename_i h
    have hfree : ¬(p.ip_version = IPVersion.v4 ∧ p.type ≠ PrefixType.pool ∧
        p.prefix_length < 31) := by
      rcases h with h | h | h
      · rintro ⟨h4, -, -⟩
        rw [h] at h4
        cases h4
      · rintro ⟨-, hnp, -⟩
        exact hnp h
      · rintro ⟨-, -, hlt⟩
        exact absurd h.2 (not_le.mpr hlt)
    constructor
    · intro ha
      obtain ⟨h1, h2⟩ := Finset.mem_sdiff.mp ha
      refine ⟨h1, ?_, fun hres => absurd hres hfree⟩
      intro ip hip hosteq
      exact h2 (List.mem_toFinset.mpr (List.mem_map.mpr ⟨ip, hip, hosteq⟩))
    · rintro ⟨h1, h2, -⟩
      refine Finset.mem_sdiff.mpr ⟨h1, ?_⟩
      intro hmem
      obtain ⟨ip, hip, hosteq⟩ := List.mem_map.mp (List.mem_toFinset.mp hmem)
      exact h2 ip hip hosteq
  · rename_i h
    push_neg at h
    obtain ⟨h6, hpool, h31⟩ := h
    have h4 : p.ip_version = IPVersion.v4 := by
      cases hv : p.ip_version with
      | v4 => rfl
      | v6 => exact absurd hv h6
    have hlt : p.prefix_length < 31 := h31 h4
    constructor
    · intro ha
      obtain ⟨ha', hfl⟩ := Finset.mem_sdiff.mp ha
      obtain ⟨h1, h2⟩ := Finset.mem_sdiff.mp ha'
      have hne : a ≠ pfxFirst p ∧ a ≠ pfxLast p := by
        constructor <;> intro he <;> apply hfl <;> rw [he] <;>
          simp [Finset.mem_insert, Finset.mem_singleton]
      refine ⟨h1, ?_, fun _ => hne⟩
      intro ip hip hosteq
      exact h2 (List.mem_toFinset.mpr (List.mem_map.mpr ⟨ip, hip, hosteq⟩))
    · rintro ⟨h1, h2, himp⟩
      have hne := himp ⟨h4, hpool, hlt⟩
      refine Finset.mem_sdiff.mpr ⟨Finset.mem_sdiff.mpr ⟨h1, ?_⟩, ?_⟩
      · intro hmem
        obtain ⟨ip, hip, hosteq⟩ := List.mem_map.mp (List.mem_toFinset.mp hmem)
        exact h2 ip hip hosteq
      · intro hmem
        rcases Finset.mem_insert.mp hmem with he | he
        · exact hne.1 he
        · exact hne.2 (Finset.mem_singleton.mp he)

/-- Witness: address 1 is available in the /30 example; the reservation
hypothesis of the characterization is discharged at that concrete input. -/
theorem get_available_ips_spec_w :
    1 ∈ get_available_ips exEmptyIPs exP30 :=
  (get_available_ips_spec.1 exEmptyIPs exP30 1).mpr (by decide)

/-- C5 (with `get_closest_parent` modelled from the spec): creating an
IPAddress whose namespace cannot be resolved fails with a validation error
keyed "parent"; when it can be resolved — explicitly for a new object, via the
stored parent's namespace for an existing one — the saved parent is the most
specific enclosing prefix of the host in that namespace, and the
caller-supplied parent argument is discarded by `__init__` apart from its
namespace. -/
theorem ipaddress_save_namespace_and_parent (s : IpamState) (obj : IPAddressObj) :
    (obj.present_in_database = false → obj._namespace = none →
      ipaddress_save s obj = Except.error (SaveErr.validation
        (ValidationErr.keyed "parent" "Namespace could not be determined."))) ∧
    (∀ ns q, obj.present_in_database = false → obj._namespace = some ns →
      get_closest_parent s obj.host ns = some q →
      ipaddress_save s obj = Except.ok
        ({ id := obj.id, host := obj.host, prefix_length := obj.prefix_length,
           ip_version := obj.ip_version, parent := some q.id, nat_inside := obj.nat_inside },
         upsertIP s
           { id := obj.id, host := obj.host, prefix_length := obj.prefix_length,
             ip_version := obj.ip_version, parent := some q.id, nat_inside := obj.nat_inside }) ∧
      q ∈ enclosingPrefixes s obj.host ns ∧
      ∀ r ∈ enclosingPrefixes s obj.host ns, r.prefix_length ≤ q.prefix_length) ∧
    (∀ pp q, obj.present_in_database = true →
      obj.parent.bind (lookupPrefix s) = some pp →
      get_closest_parent s obj.host pp.namespace_id = some q →
      ipaddress_save s obj = Except.ok
        ({ id := obj.id, host := obj.host, prefix_length := obj.prefix_length,
           ip_version := obj.ip_version, parent := some q.id, nat_inside := obj.nat_inside },
         upsertIP s
           { id := obj.id, host := obj.host, prefix_length := obj.prefix_length,
             ip_version := obj.ip_version, parent := some q.id, nat_inside := obj.nat_inside }) ∧
      q ∈ enclosingPrefixes s obj.host pp.namespace_id ∧
      ∀ r ∈ enclosingPrefixes s obj.host pp.namespace_id, r.prefix_length ≤ q.prefix_length) ∧
    (∀ i h pl v pa,
      (ipaddress_init i h pl v none (some pa)).parent = none ∧
      (ipaddress_init i h pl v none (some pa))._namespace = some pa.namespace_id ∧
      (ipaddress_init i h pl v none none)._namespace = none ∧
      ∀ nsv, ((ipaddress_init i h pl v (some nsv) (some pa))._namespace = some nsv ∧
        (ipaddress_init i h pl v (some nsv) (some pa)).parent = none)) := by
  refine ⟨?_, ?_, ?_, ?_⟩
  · intro hpres hns
    unfold ipaddress_save
    rw [hpres, hns]
    rfl
  · intro ns q hpres hns hq
    have hspec := pyMaxByLen_spec _ q hq
    refine ⟨?_, hspec.1, hspec.2⟩
    unfold ipaddress_save
    rw [hpres, hns]
    show (match get_closest_parent s obj.host ns with
      | none => _ | some q => _) = _
    rw [hq]
  · intro pp q hpres hpp hq
    have hspec := pyMaxByLen_spec _ q hq
    refine ⟨?_, hspec.1, hspec.2⟩
    unfold ipaddress_save
    rw [hpres, hpp]
    show (match get_closest_parent s obj.host pp.namespace_id with
      | none => _ | some q => _) = _
    rw [hq]
  · intro i h pl v pa
    exact ⟨rfl, rfl, rfl, fun nsv => ⟨rfl, rfl⟩⟩

/-- Witness: saving 10.0.0.5/32 with explicit namespace 0 into a table holding
10.0.0.0/8 and 10.0.0.0/16 parents it to the /16, the most specific enclosing
prefix; constructing it with no namespace and no parent then saving fails. -/
theorem ipaddress_save_namespace_and_parent_w :
    (ipaddress_save exS4 (ipaddress_init 10 167772165 32 IPVersion.v4 (some 0) none) =
      Except.ok
        ({ id := 10, host := 167772165, prefix_length := 32, ip_version := IPVersion.v4,
           parent := some exP16.id, nat_inside := none },
         upsertIP exS4
           { id := 10, host := 167772165, prefix_length := 32, ip_version := IPVersion.v4,
             parent := some exP16.id, nat_inside := none })) ∧
    ipaddress_save exS4 (ipaddress_init 10 167772165 32 IPVersion.v4 none none) =
      Except.error (SaveErr.validation
        (ValidationErr.keyed "parent" "Namespace could not be determined.")) := by
  constructor
  · exact ((ipaddress_save_namespace_and_parent exS4
      (ipaddress_init 10 167772165 32 IPVersion.v4 (some 0) none)).2.1 0 exP16
      (by decide) (by decide) (by decide)).1
  · exact (ipaddress_save_namespace_and_parent exS4
      (ipaddress_init 10 167772165 32 IPVersion.v4 none none)).1 (by decide) (by decide)

theorem mem_coveredSet (l : List PrefixRec) (a : Nat) :
    a ∈ coveredSet l ↔ ∃ q ∈ l, a ∈ prefixSet q := by
  induction l with
  | nil => simp [coveredSet]
  | cons q l ih =>
    show a ∈ prefixSet q ∪ coveredSet l ↔ _
    simp [Finset.mem_union, ih]

theorem card_prefixSet (p : PrefixRec) : (prefixSet p).card = pfxSize p := by
  have h1 : 1 ≤ pfxSize p := Nat.one_le_two_pow
  simp only [prefixSet, pfxFirst, pfxLast, Nat.card_Icc]
  omega

/-- C8: for container prefixes, utilization is the number of addresses covered
by at least one descendant prefix over the prefix's own size; for all other
types it is the used-address count over the own size, with both numerator and
denominator computed against a size reduced by 2 for non-pool IPv4 prefixes
shorter than /31. -/
theorem get_utilization_spec (s : IpamState) (p : PrefixRec) :
    (p.type = PrefixType.container →
      get_utilization s p =
        { numerator := (coveredSet (descendantsList s p)).card, denominator := pfxSize p } ∧
      ∀ a, a ∈ coveredSet (descendantsList s p) ↔ ∃ q ∈ descendantsList s p, a ∈ prefixSet q) ∧
    (p.type ≠ PrefixType.container →
      (p.ip_version = IPVersion.v4 ∧ p.prefix_length < 31 ∧ p.type ≠ PrefixType.pool →
        get_utilization s p =
          { numerator := (pfxSize p - 2) - (get_available_ips s p).card,
            denominator := pfxSize p - 2 }) ∧
      (¬(p.ip_version = IPVersion.v4 ∧ p.prefix_length < 31 ∧ p.type ≠ PrefixType.pool) →
        get_utilization s p =
          { numerator := pfxSize p - (get_available_ips s p).card,
            denominator := pfxSize p } ∧
        (get_utilization s p).numerator =
          ((((get_child_ips s p).map (fun ip => ip.host)).toFinset) ∩ prefixSet p).card)) := by
  refine ⟨?_, ?_⟩
  · intro htype
    refine ⟨?_, mem_coveredSet _⟩
    unfold get_utilization
    rw [if_pos htype]
  · intro htype
    constructor
    · intro hres
      unfold get_utilization
      rw [if_neg htype]
      simp only [if_pos hres]
    · intro hres
      have hif : (p.ip_version = IPVersion.v6 ∨ p.type = PrefixType.pool ∨
          (p.ip_version = IPVersion.v4 ∧ 31 ≤ p.prefix_length)) := by
        cases hv : p.ip_version with
        | v6 => exact Or.inl rfl
        | v4 =>
          by_cases hp : p.type = PrefixType.pool
          · exact Or.inr (Or.inl hp)
          · refine Or.inr (Or.inr ⟨rfl, ?_⟩)
            by_contra hlt
            exact hres ⟨hv, not_le.mp hlt, hp⟩
      have havail : get_available_ips s p =
          prefixSet p \ (((get_child_ips s p).map (fun ip => ip.host)).toFinset) := by
        unfold get_available_ips
        rw [if_pos hif]
      have hutil : get_utilization s p =
          { numerator := pfxSize p - (get_available_ips s p).card,
            denominator := pfxSize p } := by
        unfold get_utilization
        rw [if_neg htype]
        simp only [if_neg hres]
      refine ⟨hutil, ?_⟩
      rw [hutil]
      show pfxSize p - (get_available_ips s p).card = _
      rw [havail]
      set H := ((get_child_ips s p).map (fun ip => ip.host)).toFinset with hH
      have hsplit : (prefixSet p \ H).card + (prefixSet p ∩ H).card = (prefixSet p).card :=
        Finset.card_sdiff_add_card_inter _ _
      have h2 : (H ∩ prefixSet p).card = (prefixSet p ∩ H).card := by
        rw [Finset.inter_comm]
      rw [← card_prefixSet p]
      omega

/-- Witness: the /24 container covered by two /26 descendants reports 128/256,
and the empty non-pool /30 reports 0 used of 2. -/
theorem get_utilization_spec_w :
    get_utilization exSCont exCont =
      { numerator := (coveredSet (descendantsList exSCont exCont)).card,
        denominator := pfxSize exCont } ∧
    get_utilization exEmptyIPs exP30 =
      { numerator := (pfxSize exP30 - 2) - (get_available_ips exEmptyIPs exP30).card,
        denominator := pfxSize exP30 - 2 } := by
  constructor
  · exact ((get_utilization_spec exSCont exCont).1 (by decide)).1
  · exact ((get_utilization_spec exEmptyIPs exP30).2 (by decide)).1 (by decide)

/-- C9: when more than one IPAddress names this one as `nat_inside`, the
`nat_outside` getter raises the distinct `NATOutsideMultipleObjectsReturned`
error carrying the queried object itself; with zero entries it returns `None`
and with exactly one it returns that entry. -/
theorem nat_outside_multiplicity (s : IpamState) (ip : IPAddressRec) :
    (1 < (nat_outside_list s ip).length →
      nat_outside s ip = NatOutsideResult.multipleObjectsReturned ip) ∧
    (nat_outside_list s ip = [] → nat_outside s ip = NatOutsideResult.ok none) ∧
    (∀ e, nat_outside_list s ip = [e] →
      nat_outside s ip = NatOutsideResult.ok (some e)) := by
  refine ⟨?_, ?_, ?_⟩
  · intro h
    unfold nat_outside
    rw [if_pos h]
  · intro h
    unfold nat_outside
    rw [if_neg (by simp [h]), h]
    rfl
  · intro e h
    unfold nat_outside
    rw [if_neg (by simp [h]), h]
    rfl

/-- Witness: with two outside addresses the getter raises the distinct error
carrying the inside address; with zero or one it returns `None` or the entry. -/
theorem nat_outside_multiplicity_w :
    nat_outside exSNat2 exNatIn = NatOutsideResult.multipleObjectsReturned exNatIn ∧
    nat_outside exSNat0 exNatIn = NatOutsideResult.ok none ∧
    nat_outside exSNat1 exNatIn = NatOutsideResult.ok (some exNatOut1) :=
  ⟨(nat_outside_multiplicity exSNat2 exNatIn).1 (by decide),
   (nat_outside_multiplicity exSNat0 exNatIn).2.1 (by decide),
   (nat_outside_multiplicity exSNat1 exNatIn).2.2 exNatOut1 (by decide)⟩

/-- Peeling one validation check: if an if-then-else whose then-branch is an
error evaluates to `ok`, the else-branch does. -/
theorem ok_of_ite_error (cond : Prop) [Decidable cond] (e : ValidationErr)
    (rest : Except ValidationErr Unit)
    (h : (if cond then Except.error e else rest) = Except.ok ()) : rest = Except.ok () := by
  split at h
  · exact Except.noConfusion h
  · exact h

set_option maxHeartbeats 2000000 in
/-- C6: a termination is cabled at most once.  First, `Cable.clean` never
succeeds when the side-A termination already has a different cable attached,
and never succeeds when the side-B termination does, so validation fails when
either termination is already cabled elsewhere.  Second, under the
`CableEnd.Meta` uniqueness constraints every reachable `CableEnd` table has
pairwise distinct termination references and pairwise distinct
(cable, side, position) keys. -/
theorem cable_termination_uniqueness :
    (∀ (compat : TermModel → TermModel → Bool) (noncon : Nat → Bool) (s : DcimState)
        (c : CableRec) (taT : TermModel) (ta : TermRec) (d : Nat),
      c.termination_a_type = some taT →
      getTermination s taT c.termination_a_id = some ta →
      ta.cable = some d → d ≠ c.id →
      cable_clean compat noncon s c ≠ Except.ok ()) ∧
    (∀ (compat : TermModel → TermModel → Bool) (noncon : Nat → Bool) (s : DcimState)
        (c : CableRec) (tbT : TermModel) (tb : TermRec) (d : Nat),
      c.termination_b_type = some tbT →
      getTermination s tbT c.termination_b_id = some tb →
      tb.cable = some d → d ≠ c.id →
      cable_clean compat noncon s c ≠ Except.ok ()) ∧
    (∀ t : List CableEndRec, CEReachable t →
      t.Pairwise (fun r1 r2 => r1.cable_termination ≠ r2.cable_termination ∧
        ¬(r1.cable = r2.cable ∧ r1.cable_side = r2.cable_side ∧ r1.position = r2.position))) := by
  refine ⟨?_, ?_, ?_⟩
  · intro compat noncon s c taT ta d hat hga hcab hne
    unfold cable_clean
    rw [hat]
    simp only [hga]
    cases hbt : c.termination_b_type with
    | none => simp
    | some tbT =>
      simp only
      cases hgb : getTermination s tbT c.termination_b_id with
      | none => simp
      | some tb =>
        simp only
        intro hcontra
        have hA : (ta.cable.elim false fun x => !(x == c.id)) = true := by
          rw [hcab]
          simp [hne]
        simp only [hA] at hcontra
        simp only [if_true] at hcontra
        repeat' split at hcontra
        all_goals exact Except.noConfusion hcontra
  · intro compat noncon s c tbT tb d hbt hgb hcab hne
    unfold cable_clean
    cases hat : c.termination_a_type with
    | none => simp
    | some taT =>
      simp only
      cases hga : getTermination s taT c.termination_a_id with
      | none => simp
      | some ta =>
        simp only
        rw [hbt]
        simp only [hgb]
        intro hcontra
        have hB : ((tb.cable.elim false fun x => !(x == c.id)) = true) := by
          rw [hcab]
          simp [hne]
        replace hcontra := ok_of_ite_error _ _ _ hcontra
        replace hcontra := ok_of_ite_error _ _ _ hcontra
        replace hcontra := ok_of_ite_error _ _ _ hcontra
        replace hcontra := ok_of_ite_error _ _ _ hcontra
        replace hcontra := ok_of_ite_error _ _ _ hcontra
        replace hcontra := ok_of_ite_error _ _ _ hcontra
        replace hcontra := ok_of_ite_error _ _ _ hcontra
        replace hcontra := ok_of_ite_error _ _ _ hcontra
        replace hcontra := ok_of_ite_error _ _ _ hcontra
        replace hcontra := ok_of_ite_error _ _ _ hcontra
        replace hcontra := ok_of_ite_error _ _ _ hcontra
        rw [if_pos hB] at hcontra
        exact Except.noConfusion hcontra
  · intro t ht
    induction ht with
    | empty => exact List.Pairwise.nil
    | insert e t ht hok ih =>
      refine List.Pairwise.cons ?_ ih
      intro r hr
      replace hok : (t.any fun r =>
          (r.cable == e.cable && r.position == e.position && r.cable_side == e.cable_side) ||
          r.cable_termination == e.cable_termination) = false := hok
      rw [List.any_eq_false] at hok
      have hrf := hok r hr
      simp only [Bool.or_eq_true, Bool.and_eq_true, beq_iff_eq, not_or] at hrf
      constructor
      · intro he
        exact hrf.2 he.symm
      · rintro ⟨h1, h2, h3⟩
        exact hrf.1 ⟨⟨h1.symm, h3.symm⟩, h2.symm⟩
    | remove e t ht ih =>
      exact ih.sublist (List.erase_sublist e t)

/-- Witness: a cable whose side A is the already-cabled console port `exT5`
fails validation, as does one whose side B is that port; and a one-row
`CableEnd` table reached by a constrained insert satisfies both pairwise
uniqueness properties. -/
theorem cable_termination_uniqueness_w :
    (cable_clean compatAll nonconNone exDcim
        (exCab (some TermModel.consoleport) 5 (some TermModel.consoleserverport) 2) ≠
      Except.ok ()) ∧
    (cable_clean compatAll nonconNone exDcim
        (exCab (some TermModel.consoleserverport) 2 (some TermModel.consoleport) 5) ≠
      Except.ok ()) ∧
    ([{ cable := 1, cable_termination := 1, cable_side := CableSide.a, position := 0 }] :
        List CableEndRec).Pairwise (fun r1 r2 =>
          r1.cable_termination ≠ r2.cable_termination ∧
          ¬(r1.cable = r2.cable ∧ r1.cable_side = r2.cable_side ∧ r1.position = r2.position)) :=
  ⟨cable_termination_uniqueness.1 compatAll nonconNone exDcim
      (exCab (some TermModel.consoleport) 5 (some TermModel.consoleserverport) 2)
      TermModel.consoleport exT5 99 rfl (by decide) rfl (by decide),
   cable_termination_uniqueness.2.1 compatAll nonconNone exDcim
      (exCab (some TermModel.consoleserverport) 2 (some TermModel.consoleport) 5)
      TermModel.consoleport exT5 99 rfl (by decide) rfl (by decide),
   cable_termination_uniqueness.2.2 _
     (CEReachable.insert _ _ CEReachable.empty rfl)⟩

/-- Counterexample to C7 as stated: a cable given a length without a length
unit fails `Cable.clean` with an unstructured text error, not a failure keyed
by the offending field. -/
theorem cable_clean_unstructured_cex :
    cable_clean compatAll nonconNone exDcim
      { exCab (some TermModel.consoleport) 1 (some TermModel.consoleserverport) 2 with
        length := some 5 } =
      Except.error (ValidationErr.plain "Must specify a unit when setting a cable length") ∧
    (ValidationErr.plain "Must specify a unit when setting a cable length").isKeyed = false :=
  ⟨rfl, rfl⟩

/-- C7 (amended): only some of `Cable.clean`'s failures are keyed by the
offending field — invalid termination id, non-connectable interface type,
provider-network-attached circuit termination, and modified termination of a
saved cable; the incompatible-termination-types, rear-port position mismatch,
self-connection, front-to-corresponding-rear-port, already-cabled and
missing-length-unit failures are unstructured text messages. -/
theorem cable_clean_error_structure :
    cable_clean compatAll nonconNone exDcim
      (exCab (some TermModel.consoleport) 42 (some TermModel.consoleserverport) 2) =
      Except.error (ValidationErr.keyed "termination_a" "Invalid ID for type") ∧
    cable_clean compatAll (fun t => t == 1)
      { cables := [],
        terminations := [
          { model := TermModel.interface, id := 11, iface_type := 1, positions := 0,
            rear_port := none, provider_network := none, cable := none }, exT2 ] }
      (exCab (some TermModel.interface) 11 (some TermModel.consoleserverport) 2) =
      Except.error (ValidationErr.keyed "termination_a_id"
        "Cables cannot be terminated to this interface type") ∧
    cable_clean compatAll nonconNone exDcim9 exCab9ModA =
      Except.error (ValidationErr.keyed "termination_a"
        "Cable termination points may not be modified. Delete and recreate the cable instead.") ∧
    cable_clean compatAll nonconNone
      { cables := [],
        terminations := [
          { model := TermModel.circuittermination, id := 8, iface_type := 0, positions := 0,
            rear_port := none, provider_network := some 3, cable := none }, exT2 ] }
      (exCab (some TermModel.circuittermination) 8 (some TermModel.consoleserverport) 2) =
      Except.error (ValidationErr.keyed "termination_a_id"
        "Circuit terminations attached to a provider network may not be cabled.") ∧
    cable_clean compatNone nonconNone exDcim
      (exCab (some TermModel.consoleport) 1 (some TermModel.consoleserverport) 2) =
      Except.error (ValidationErr.plain "Incompatible termination types") ∧
    cable_clean compatAll nonconNone
      { cables := [],
        terminations := [
          { model := TermModel.rearport, id := 21, iface_type := 0, positions := 2,
            rear_port := none, provider_network := none, cable := none },
          { model := TermModel.rearport, id := 22, iface_type := 0, positions := 3,
            rear_port := none, provider_network := none, cable := none } ] }
      (exCab (some TermModel.rearport) 21 (some TermModel.rearport) 22) =
      Except.error (ValidationErr.plain
        "Both terminations must have the same number of positions (if greater than one)") ∧
    cable_clean compatAll nonconNone exDcim
      (exCab (some TermModel.consoleport) 1 (some TermModel.consoleport) 1) =
      Except.error (ValidationErr.plain "Cannot connect a termination type to itself") ∧
    cable_clean compatAll nonconNone exDcim
      (exCab (some TermModel.frontport) 3 (some TermModel.rearport) 4) =
      Except.error (ValidationErr.plain
        "A front port cannot be connected to it corresponding rear port") ∧
    cable_clean compatAll nonconNone exDcim
      (exCab (some TermModel.consoleport) 5 (some TermModel.consoleserverport) 2) =
      Except.error (ValidationErr.plain "Termination A already has a cable attached") ∧
    cable_clean compatAll nonconNone exDcim
      { exCab (some TermModel.consoleport) 1 (some TermModel.consoleserverport) 2 with
        length := some 5 } =
      Except.error (ValidationErr.plain "Must specify a unit when setting a cable length") :=
  ⟨rfl, rfl, rfl, rfl, rfl, rfl, rfl, rfl, rfl, rfl⟩

/-- C10: for a cable already persisted (both terminations resolving), changing
the stored termination type or id of side A makes `Cable.clean` fail with an
error keyed "termination_a", and likewise changing side B (side A unchanged)
fails keyed "termination_b": endpoints are immutable after creation. -/
theorem cable_terminations_immutable
    (compat : TermModel → TermModel → Bool) (noncon : Nat → Bool) (s : DcimState)
    (c c0 : CableRec) (taT tbT : TermModel) (ta tb : TermRec)
    (hat : c.termination_a_type = some taT)
    (hga : getTermination s taT c.termination_a_id = some ta)
    (hbt : c.termination_b_type = some tbT)
    (hgb : getTermination s tbT c.termination_b_id = some tb)
    (hpres : c.present_in_database = true)
    (hfind : s.cables.find? (fun x => x.id == c.id) = some c0) :
    ((c.termination_a_type ≠ c0.termination_a_type ∨ c.termination_a_id ≠ c0.termination_a_id) →
      cable_clean compat noncon s c = Except.error (ValidationErr.keyed "termination_a"
        "Cable termination points may not be modified. Delete and recreate the cable instead.")) ∧
    (c.termination_a_type = c0.termination_a_type → c.termination_a_id = c0.termination_a_id →
      (c.termination_b_type ≠ c0.termination_b_type ∨ c.termination_b_id ≠ c0.termination_b_id) →
      cable_clean compat noncon s c = Except.error (ValidationErr.keyed "termination_b"
        "Cable termination points may not be modified. Delete and recreate the cable instead.")) := by
  constructor
  · intro hmod
    unfold cable_clean
    rw [hat]
    simp only [hga]
    rw [hbt]
    simp only [hgb]
    have hcond : (c.present_in_database &&
        ((s.cables.find? (fun x => x.id == c.id)).elim false fun x =>
          !(some taT == x.termination_a_type && c.termination_a_id == x.termination_a_id))) =
        true := by
      rw [hpres, hfind]
      simp only [Option.elim, Bool.true_and]
      rcases hmod with h | h
      · rw [hat] at h
        simp [h]
      · simp [h]
    rw [if_pos hcond]
  · intro ha1 ha2 hmod
    unfold cable_clean
    rw [hat]
    simp only [hga]
    rw [hbt]
    simp only [hgb]
    have hsome : some taT = c0.termination_a_type := hat.symm.trans ha1
    rw [if_neg (by rw [hpres, hfind]; simp [hsome, ha2])]
    have hcond2 : (c.present_in_database &&
        ((s.cables.find? (fun x => x.id == c.id)).elim false fun x =>
          !(some tbT == x.termination_b_type && c.termination_b_id == x.termination_b_id))) =
        true := by
      rw [hpres, hfind]
      simp only [Option.elim, Bool.true_and]
      rcases hmod with h | h
      · rw [hbt] at h
        simp [h]
      · simp [h]
    rw [if_pos hcond2]

/-- Witness: cable 9 is stored between the console port and the console server
port; re-pointing side A at the already-known console port 5 fails keyed
"termination_a", and re-pointing side B fails keyed "termination_b". -/
theorem cable_terminations_immutable_w :
    cable_clean compatAll nonconNone exDcim9 exCab9ModA =
      Except.error (ValidationErr.keyed "termination_a"
        "Cable termination points may not be modified. Delete and recreate the cable instead.") ∧
    cable_clean compatAll nonconNone exDcim9 exCab9ModB =
      Except.error (ValidationErr.keyed "termination_b"
        "Cable termination points may not be modified. Delete and recreate the cable instead.") :=
  ⟨(cable_terminations_immutable compatAll nonconNone exDcim9 exCab9ModA exCab9Stored
      TermModel.consoleport TermModel.consoleserverport exT5 exT2
      rfl (by decide) rfl (by decide) rfl (by decide)).1 (Or.inr (by decide)),
   (cable_terminations_immutable compatAll nonconNone exDcim9 exCab9ModB exCab9Stored
      TermModel.consoleport TermModel.consoleport exT1 exT1
      rfl (by decide) rfl (by decide) rfl (by decide)).2 (by decide) (by decide)
      (Or.inl (by decide))⟩
